import Mathlib

/-!
Shallow embedding of the `DynamicTable` widget from
`src/kbase-extension/static/kbase/js/widgets/dynamicTable.js`.

The widget owns mutable display state (current page, sort column/direction,
query string, row window) and mutates it in response to user events
(pagination button clicks, search keystrokes, sort-header clicks) and to the
settling of asynchronous fetches.  We embed that state as a Lean structure and
each event handler as a pure function from pre-state to post-state; the
asynchronous fetch is embedded by passing the settled outcome of the
caller-supplied `updateFunction` (`Except` for a resolved/rejected promise)
into the handler that fired it.  JavaScript numbers holding page indices and
row counts are embedded as `Int` (the code decrements below zero before
clamping, so `Nat` would be unfaithful).  JavaScript's distinction between a
missing field (`undefined`), `null`, and a present value is embedded by
`JsOpt`.
-/

namespace DynTable

/-- JavaScript tri-valued presence: a field may be absent (`undefined`),
`null`, or hold a value. -/
inductive JsOpt (α : Type) where
  | undef : JsOpt α
  | null : JsOpt α
  | val : α → JsOpt α
deriving DecidableEq, Repr

/-- A column descriptor, as held in `this.headers`.  `makeTableHeader` stores
the transient sort state directly on the header object (`header.sortState`),
initialising it to `0`; `1` is ascending (`fa-sort-up`), `-1` descending. -/
structure Header where
  id : String
  text : String
  isSortable : Bool
  sortState : Int
deriving DecidableEq, Repr

/-- The payload a resolved `updateFunction` call delivers to `update`:
`{ rows, start, total }`. -/
structure FetchData where
  rows : List (List String)
  start : Int
  total : Int
deriving DecidableEq, Repr

/-- The four positional arguments `getNewData` passes to
`this.options.updateFunction(currentPage, currentQuery, currentSort.id,
currentSort.sortState)`. -/
structure FetchArgs where
  pageNum : Int
  query : JsOpt String
  sortColId : JsOpt String
  sortColDir : JsOpt Int
deriving DecidableEq, Repr

/-- The `col` field of a decoration rule.  The file's usage comment shows a
column id string (`col: 'col1'`), but `setData` uses the value both as an
array subscript (`row[dec.col]`) and inside a positional jQuery selector
(`td:eq(dec.col)`), so a numeric index and a string key behave differently;
the embedding keeps both shapes. -/
inductive ColKey where
  | idx : Nat → ColKey
  | id : String → ColKey
deriving DecidableEq, Repr

/-- A decoration rule `{ col, type, clickFunction }`.  `hasClick` records
whether a `clickFunction` is present (its body lives outside the widget). -/
structure Decoration where
  col : ColKey
  type : String
  hasClick : Bool
deriving DecidableEq, Repr

/-- `'<a style="cursor:pointer">' + cell + '</a>'` (dynamicTable.js line 263). -/
def wrapLink (cell : String) : String :=
  "<a style=\"cursor:pointer\">" ++ cell ++ "</a>"

/-- `'<button class="btn btn-default btn-sm">' + cell + '</button>'`
(dynamicTable.js line 266). -/
def wrapButton (cell : String) : String :=
  "<button class=\"btn btn-default btn-sm\">" ++ cell ++ "</button>"

/-- One iteration of the decoration loop in `setData`: for a rule of type
`link` or `button`, `row[dec.col]` is overwritten with the wrapped markup.
With a numeric in-range `col` this rewrites the array element; with a string
`col` the JavaScript assignment creates an expando property on the array
object and leaves every array element (hence the rendered row) unchanged,
which the embedding renders as the identity. -/
def applyDec (dec : Decoration) (row : List String) : List String :=
  match dec.col with
  | ColKey.idx n =>
    match row[n]? with
    | some cell =>
      if dec.type = "link" then row.set n (wrapLink cell)
      else if dec.type = "button" then row.set n (wrapButton cell)
      else row
    | none => row
  | ColKey.id _ => row

/-- The full decoration pass `this.options.decoration.forEach(...)` over one
row, rules applied in order.  The JavaScript loop mutates the caller's row
array in place; the embedding returns the array's post-loop contents. -/
def decorateRow (decs : List Decoration) (row : List String) : List String :=
  decs.foldl (fun r dec => applyDec dec r) row

/-- Character-level worker for `stripTags`; the flag records whether the
scan is inside a `<...>` tag. -/
def stripTagsAux : List Char → Bool → List Char
  | [], _ => []
  | c :: cs, false => if c = '<' then stripTagsAux cs true else c :: stripTagsAux cs false
  | c :: cs, true => if c = '>' then stripTagsAux cs false else stripTagsAux cs true

/-- Text content of an HTML fragment (jQuery `.text()`): characters outside
`<...>` tags. -/
def stripTags (s : String) : String :=
  ⟨stripTagsAux s.data false⟩

/-- `$newRow.find('td:eq(n) > :eq(0)')` restricted to one cell: the first
child *element* of the cell.  A cell whose markup is plain text has no child
element, so the selection is empty (`none`); otherwise the child element's
`.text()` is its tag-stripped content. -/
def firstChildText (cellHtml : String) : Option String :=
  match cellHtml.data with
  | '<' :: _ => some (stripTags cellHtml)
  | _ => none

/-- The argument `dec.clickFunction` receives when the element bound by the
second decoration loop in `setData` is clicked, evaluated against the
(already decorated) row; `none` means the click handler never fires: no
`clickFunction`, a string `col` (the selector `td:eq(<string>)` matches no
cell), an out-of-range index, or a cell with no child element. -/
def clickInvocation (dec : Decoration) (decoratedRow : List String) : Option String :=
  if dec.hasClick then
    match dec.col with
    | ColKey.idx n =>
      match decoratedRow[n]? with
      | some cell => firstChildText cell
      | none => none
    | ColKey.id _ => none
  else none

/-- `DynamicTable.prototype.getPrevPage` (lines 172-178): decrement
`currentPage`, clamp below at 0, return the result. -/
def getPrevPage (currentPage : Int) : Int :=
  let p := currentPage - 1
  if p < 0 then 0 else p

/-- `DynamicTable.prototype.getNextPage` (lines 184-190): increment
`currentPage`; if the new page starts at or beyond `total`, undo the
increment; return the result. -/
def getNextPage (rowsPerPage total currentPage : Int) : Int :=
  let p := currentPage + 1
  if p * rowsPerPage ≥ total then p - 1 else p

/-- A pagination step: which of the two navigation methods is called. -/
inductive NavOp where
  | advance : NavOp
  | retreat : NavOp
deriving DecidableEq, Repr

/-- Apply one navigation call to the current page. -/
def navStep (rowsPerPage total : Int) (currentPage : Int) : NavOp → Int
  | NavOp.advance => getNextPage rowsPerPage total currentPage
  | NavOp.retreat => getPrevPage currentPage

/-- The page reached from the constructor's `currentPage = 0` by a sequence
of `getNextPage`/`getPrevPage` calls, with `total` and `rowsPerPage` fixed. -/
def navRun (rowsPerPage total : Int) (ops : List NavOp) : Int :=
  ops.foldl (navStep rowsPerPage total) 0

/-- The widget's mutable state.  DOM-visible effects are embedded as fields:
`tBody` holds the decorated cell contents of the rendered rows, `shownText`
the footer status line, `loadingVisible` the spinner, `alertCount` /
`errorLogCount` the `alert('error!')` / `console.error(error)` calls made so
far, and `fetchLog` the arguments of every `updateFunction` invocation, most
recent first.  `this.currentSort` starts as `{id: null, dir: null}` and is
later assigned a header *object*; because the header is mutated in place on
later clicks, the embedding stores the index of that header
(`currentSortIdx = none` for the initial literal) and reads id / sortState
through it.  The source's `this.end` is named `endIndex` (`end` is reserved
in Lean). -/
structure DynamicTable where
  currentPage : Int
  rowsPerPage : Int
  total : Int
  start : Int
  endIndex : Int
  currentQuery : JsOpt String
  headers : List Header
  currentSortIdx : Option Nat
  decoration : List Decoration
  tBody : List (List String)
  shownText : String
  loadingVisible : Bool
  alertCount : Nat
  errorLogCount : Nat
  fetchLog : List FetchArgs
deriving DecidableEq, Repr

/-- `this.currentSort.id`: `null` from the constructor's literal, otherwise
the assigned header's `id`. -/
def DynamicTable.sortId (st : DynamicTable) : JsOpt String :=
  match st.currentSortIdx with
  | none => JsOpt.null
  | some i =>
    match st.headers[i]? with
    | some h => JsOpt.val h.id
    | none => JsOpt.null

/-- `this.currentSort.sortState`: the constructor's literal
`{id: null, dir: null}` has no `sortState` field, so the read yields
`undefined`; after a sort click it is the assigned header's current
`sortState`. -/
def DynamicTable.sortDir (st : DynamicTable) : JsOpt Int :=
  match st.currentSortIdx with
  | none => JsOpt.undef
  | some i =>
    match st.headers[i]? with
    | some h => JsOpt.val h.sortState
    | none => JsOpt.undef

/-- `DynamicTable.prototype.setData` (lines 256-282): empty the body, then
store each row with its decorations applied.  (The per-cell `<td>` wrapping
and click binding are presentational; `tBody` keeps the decorated cell
contents, `clickInvocation` above models the binding.) -/
def DynamicTable.setData (st : DynamicTable) (data : List (List String)) : DynamicTable :=
  { st with tBody := data.map (decorateRow st.decoration) }

/-- `DynamicTable.prototype.update` (lines 291-315): refresh the sort icons
(DOM-only, derived from `headers`), replace the body via `setData`, then set
`start`, `end = start + rows.length`, `total`, and the footer text
`'Showing ' + (start+1) + ' to ' + end + ' of ' + total`. -/
def DynamicTable.update (st : DynamicTable) (data : FetchData) : DynamicTable :=
  let st := st.setData data.rows
  let st := { st with
    start := data.start,
    endIndex := data.start + (data.rows.length : Int),
    total := data.total }
  { st with
    shownText := "Showing " ++ toString (st.start + 1) ++ " to "
      ++ toString st.endIndex ++ " of " ++ toString st.total }

/-- `DynamicTable.prototype.getNewData` (lines 196-212): show the spinner,
invoke `updateFunction(currentPage, currentQuery, currentSort.id,
currentSort.sortState)`; `.then` feeds the data to `update`, `.catch` fires
`alert('error!')` and `console.error(error)`, and `.finally` hides the
spinner.  The settled outcome of the promise is the `result` argument. -/
def DynamicTable.getNewData (st : DynamicTable) (result : Except String FetchData) :
    DynamicTable :=
  let args : FetchArgs :=
    { pageNum := st.currentPage, query := st.currentQuery,
      sortColId := st.sortId, sortColDir := st.sortDir }
  let st := { st with loadingVisible := true, fetchLog := args :: st.fetchLog }
  let st :=
    match result with
    | Except.ok data => st.update data
    | Except.error _ =>
      { st with alertCount := st.alertCount + 1, errorLogCount := st.errorLogCount + 1 }
  { st with loadingVisible := false }

/-- The left pagination button's click handler (lines 128-134): remember
`currentPage`, call `getPrevPage()`, and fetch only if the returned page
differs. -/
def DynamicTable.prevClick (st : DynamicTable) (result : Except String FetchData) :
    DynamicTable :=
  let curP := st.currentPage
  let st := { st with currentPage := getPrevPage st.currentPage }
  if st.currentPage ≠ curP then st.getNewData result else st

/-- The right pagination button's click handler (lines 135-141): remember
`currentPage`, call `getNextPage()`, and fetch only if the returned page
differs. -/
def DynamicTable.nextClick (st : DynamicTable) (result : Except String FetchData) :
    DynamicTable :=
  let curP := st.currentPage
  let st := { st with currentPage := getNextPage st.rowsPerPage st.total st.currentPage }
  if st.currentPage ≠ curP then st.getNewData result else st

/-- The search input's `keyup` handler (lines 156-160): store the trimmed
input as `currentQuery`, reset `currentPage` to 0, and fetch. -/
def DynamicTable.searchKeyup (st : DynamicTable) (text : String)
    (result : Except String FetchData) : DynamicTable :=
  let st := { st with currentQuery := JsOpt.val text.trim, currentPage := 0 }
  st.getNewData result

/-- The header mutation done by the sort button's click handler
(lines 225-240): capture the clicked header's `sortState`, reset every
header's `sortState` to 0, then set the clicked one to 1 when the captured
state was below 1 and to -1 otherwise. -/
def toggleSortStates (headers : List Header) (i : Nat) : List Header :=
  match headers[i]? with
  | none => headers
  | some h =>
    let curState := h.sortState
    let reset := headers.map (fun h2 => { h2 with sortState := 0 })
    reset.set i { h with sortState := if curState < 1 then 1 else -1 }

/-- The sort button's click handler for header `i`: the button only exists
for a sortable header.  It rewrites the sort states, assigns
`this.currentSort = header`, and fetches. -/
def DynamicTable.sortClick (st : DynamicTable) (i : Nat)
    (result : Except String FetchData) : DynamicTable :=
  match st.headers[i]? with
  | none => st
  | some h =>
    if h.isSortable then
      DynamicTable.getNewData
        { st with headers := toggleSortStates st.headers i, currentSortIdx := some i }
        result
    else st

/-- A user-visible event together with the settled outcome of the fetch it
fires (if any). -/
inductive Op where
  | prevClick : Except String FetchData → Op
  | nextClick : Except String FetchData → Op
  | searchKeyup : String → Except String FetchData → Op
  | sortClick : Nat → Except String FetchData → Op

/-- Dispatch one event. -/
def DynamicTable.step (st : DynamicTable) : Op → DynamicTable
  | Op.prevClick r => st.prevClick r
  | Op.nextClick r => st.nextClick r
  | Op.searchKeyup text r => st.searchKeyup text r
  | Op.sortClick i r => st.sortClick i r

/-- Whether the event is a pagination-button click (no typing, no sorting). -/
def Op.isNav : Op → Bool
  | Op.prevClick _ => true
  | Op.nextClick _ => true
  | _ => false

/-- The `DynamicTable` constructor (lines 50-79): build the initial state
from the options (headers get `sortState = 0` in `makeTableHeader`;
`this.currentQuery` is never initialised, so it is `undefined`;
`this.currentSort = {id: null, dir: null}`), then fire the initial
`getNewData`. -/
def initTable (headers0 : List (String × String × Bool)) (decs : List Decoration)
    (rowsPerPage : Int) (initResult : Except String FetchData) : DynamicTable :=
  let st : DynamicTable :=
    { currentPage := 0, rowsPerPage := rowsPerPage, total := 0, start := 0,
      endIndex := 0, currentQuery := JsOpt.undef,
      headers := headers0.map (fun h =>
        { id := h.1, text := h.2.1, isSortable := h.2.2, sortState := 0 }),
      currentSortIdx := none, decoration := decs, tBody := [], shownText := "",
      loadingVisible := false, alertCount := 0, errorLogCount := 0, fetchLog := [] }
  st.getNewData initResult

/-- The widget state after construction followed by a sequence of events. -/
def runTable (headers0 : List (String × String × Bool)) (decs : List Decoration)
    (rowsPerPage : Int) (initResult : Except String FetchData) (ops : List Op) :
    DynamicTable :=
  ops.foldl DynamicTable.step (initTable headers0 decs rowsPerPage initResult)

/-! ## Navigation invariant (C1, C2) -/

/-- The navigation invariant: the page is non-negative, its first row lies
below `total` when rows exist, and the page is 0 when there are none. -/
def NavInv (rowsPerPage total cp : Int) : Prop :=
  0 ≤ cp ∧ (0 < total → cp * rowsPerPage < total) ∧ (total = 0 → cp = 0)

theorem navStep_preserves_inv {rowsPerPage total cp : Int} (hr : 0 < rowsPerPage)
    (h : NavInv rowsPerPage total cp) (op : NavOp) :
    NavInv rowsPerPage total (navStep rowsPerPage total cp op) := by
  obtain ⟨h0, h1, h2⟩ := h
  cases op with
  | retreat =>
    simp only [navStep, getPrevPage, NavInv]
    split
    · exact ⟨le_refl 0, fun hpos => by simpa using hpos, fun _ => rfl⟩
    · refine ⟨by omega, fun hpos => ?_, fun hz => by have := h2 hz; omega⟩
      calc (cp - 1) * rowsPerPage ≤ cp * rowsPerPage :=
            mul_le_mul_of_nonneg_right (by omega) hr.le
        _ < total := h1 hpos
  | advance =>
    simp only [navStep, getNextPage, NavInv]
    split
    · next hc =>
        refine ⟨by omega, fun hpos => ?_, fun hz => by have := h2 hz; omega⟩
        have hred : cp + 1 - 1 = cp := by omega
        rw [hred]
        exact h1 hpos
    · next hc =>
        push_neg at hc
        refine ⟨by omega, fun _ => hc, fun hz => ?_⟩
        have hpos : 0 < (cp + 1) * rowsPerPage := mul_pos (by omega) hr
        omega

theorem navFold_preserves_inv {rowsPerPage total : Int} (hr : 0 < rowsPerPage) :
    ∀ (ops : List NavOp) (cp : Int), NavInv rowsPerPage total cp →
      NavInv rowsPerPage total (ops.foldl (navStep rowsPerPage total) cp)
  | [], _, h => h
  | op :: ops, cp, h =>
    navFold_preserves_inv hr ops (navStep rowsPerPage total cp op)
      (navStep_preserves_inv hr h op)

/-- C1: for every sequence of `getNextPage`/`getPrevPage` calls starting
from `currentPage = 0` with `total` and `rowsPerPage` fixed, `currentPage`
stays within `[0, (total-1)/rowsPerPage]` and its first row index stays
below `total` whenever `total > 0`, and `currentPage` is 0 whenever
`total = 0`. -/
theorem c1_navigation_invariant (rowsPerPage total : Int) (ops : List NavOp)
    (hr : 0 < rowsPerPage) :
    (0 < total → 0 ≤ navRun rowsPerPage total ops
      ∧ navRun rowsPerPage total ops ≤ (total - 1) / rowsPerPage
      ∧ navRun rowsPerPage total ops * rowsPerPage < total)
    ∧ (total = 0 → navRun rowsPerPage total ops = 0) := by
  have hinit : NavInv rowsPerPage total 0 := by
    refine ⟨le_refl 0, fun hpos => by simpa using hpos, fun _ => rfl⟩
  have hrun : navRun rowsPerPage total ops = ops.foldl (navStep rowsPerPage total) 0 := rfl
  rw [hrun]
  obtain ⟨h0, h1, h2⟩ := navFold_preserves_inv hr ops 0 hinit
  refine ⟨fun hpos => ⟨h0, ?_, h1 hpos⟩, h2⟩
  exact (Int.le_ediv_iff_mul_le hr).mpr (by have := h1 hpos; omega)

/-- Witness for C1 at `rowsPerPage = 10`, `total = 25` and three advances
followed by a retreat. -/
theorem c1_navigation_invariant_witness :
    0 ≤ navRun 10 25 [NavOp.advance, NavOp.advance, NavOp.advance, NavOp.retreat]
    ∧ navRun 10 25 [NavOp.advance, NavOp.advance, NavOp.advance, NavOp.retreat] ≤ (25 - 1) / 10
    ∧ navRun 10 25 [NavOp.advance, NavOp.advance, NavOp.advance, NavOp.retreat] * 10 < 25 :=
  (c1_navigation_invariant 10 25 [NavOp.advance, NavOp.advance, NavOp.advance, NavOp.retreat]
    (by decide)).1 (by decide)

/-- Every `getNewData` call invokes `updateFunction` exactly once, logging the
current display state, whether the promise resolves or rejects. -/
theorem getNewData_fetchLog (st : DynamicTable) (r : Except String FetchData) :
    (st.getNewData r).fetchLog =
      { pageNum := st.currentPage, query := st.currentQuery,
        sortColId := st.sortId, sortColDir := st.sortDir : FetchArgs } :: st.fetchLog := by
  cases r <;> rfl

/-- C2: `getPrevPage`/`getNextPage` move the page by one, clamped to the
valid range, and return the result: `getPrevPage` returns `max (cp-1) 0`,
and from a valid page `getNextPage` returns `min (cp+1) lastPage`;
`getPrevPage 0 = 0`; `getNextPage` at the last page of
`total = 25, rowsPerPage = 10, currentPage = 2` returns 2; and each
pagination button fires a fetch precisely when the returned index differs
from the index before the call. -/
theorem c2_navigation_steps (cp rowsPerPage total : Int)
    (st : DynamicTable) (r : Except String FetchData)
    (hr : 0 < rowsPerPage) (hlt : cp * rowsPerPage < total) :
    getPrevPage cp = max (cp - 1) 0
    ∧ getNextPage rowsPerPage total cp = min (cp + 1) ((total - 1) / rowsPerPage)
    ∧ getPrevPage 0 = 0
    ∧ getNextPage 10 25 2 = 2
    ∧ ((st.prevClick r).fetchLog.length = st.fetchLog.length
        ↔ getPrevPage st.currentPage = st.currentPage)
    ∧ ((st.nextClick r).fetchLog.length = st.fetchLog.length
        ↔ getNextPage st.rowsPerPage st.total st.currentPage = st.currentPage) := by
  have hle : cp ≤ (total - 1) / rowsPerPage :=
    (Int.le_ediv_iff_mul_le hr).mpr (by omega)
  refine ⟨?_, ?_, by decide, by decide, ?_, ?_⟩
  · simp only [getPrevPage]
    split <;> omega
  · simp only [getNextPage]
    split
    · next hc =>
        have hnl : ¬ (cp + 1 ≤ (total - 1) / rowsPerPage) := by
          rw [Int.le_ediv_iff_mul_le hr]
          omega
        omega
    · next hc =>
        have hl : cp + 1 ≤ (total - 1) / rowsPerPage := by
          rw [Int.le_ediv_iff_mul_le hr]
          omega
        omega
  · simp only [DynamicTable.prevClick]
    by_cases h : getPrevPage st.currentPage = st.currentPage
    · simp [h]
    · simp [h, getNewData_fetchLog]
  · simp only [DynamicTable.nextClick]
    by_cases h : getNextPage st.rowsPerPage st.total st.currentPage = st.currentPage
    · simp [h]
    · simp [h, getNewData_fetchLog]

/-- Witness for C2 at `cp = 1`, `rowsPerPage = 10`, `total = 25`, on a
freshly constructed widget. -/
theorem c2_navigation_steps_witness :
    getPrevPage 1 = max (1 - 1) 0
    ∧ getNextPage 10 25 1 = min (1 + 1) ((25 - 1) / 10)
    ∧ getPrevPage 0 = 0
    ∧ getNextPage 10 25 2 = 2 :=
  have h := c2_navigation_steps 1 10 25 (initTable [] [] 10 (Except.error "e"))
    (Except.error "e") (by decide) (by decide)
  ⟨h.1, h.2.1, h.2.2.1, h.2.2.2.1⟩

/-- C3: one sort toggle sets the clicked column to 1 (ascending) exactly when
its captured state was 0 (none) or -1 (descending), and to -1 when it was 1
(ascending); every other column is reset to 0.  Consequently successive
toggles on one column cycle 0, 1, -1, 1, ..., and toggling a different
column zeroes the first; the concrete two-column runs spell this out. -/
theorem c3_sort_toggle_cycle (headers : List Header) (i : Nat) (h : Header)
    (hget : headers[i]? = some h) :
    ((toggleSortStates headers i)[i]?
        = some { h with sortState := if h.sortState < 1 then 1 else -1 })
    ∧ (h.sortState = 0 ∨ h.sortState = -1 →
        (toggleSortStates headers i)[i]? = some { h with sortState := 1 })
    ∧ (h.sortState = 1 →
        (toggleSortStates headers i)[i]? = some { h with sortState := -1 })
    ∧ (∀ j h', j ≠ i → headers[j]? = some h' →
        (toggleSortStates headers i)[j]? = some { h' with sortState := 0 })
    ∧ ((toggleSortStates [⟨"a", "A", true, 0⟩, ⟨"b", "B", true, 0⟩] 1).map
          (fun h2 => h2.sortState) = [0, 1]
        ∧ (toggleSortStates (toggleSortStates [⟨"a", "A", true, 0⟩, ⟨"b", "B", true, 0⟩] 1) 1).map
          (fun h2 => h2.sortState) = [0, -1]
        ∧ (toggleSortStates (toggleSortStates (toggleSortStates
            [⟨"a", "A", true, 0⟩, ⟨"b", "B", true, 0⟩] 1) 1) 1).map
          (fun h2 => h2.sortState) = [0, 1]
        ∧ (toggleSortStates (toggleSortStates [⟨"a", "A", true, 0⟩, ⟨"b", "B", true, 0⟩] 1) 0).map
          (fun h2 => h2.sortState) = [1, 0]) := by
  have hi : i < headers.length := List.getElem?_eq_some.mp hget |>.1
  have hmap : (headers.map (fun h2 => { h2 with sortState := 0 })).length = headers.length :=
    List.length_map _ _
  refine ⟨?_, ?_, ?_, ?_, by decide, by decide, by decide, by decide⟩
  · simp only [toggleSortStates, hget]
    exact List.getElem?_set_eq_of_lt _ (by omega)
  · intro hcase
    simp only [toggleSortStates, hget]
    have hlt : h.sortState < 1 := by rcases hcase with hc | hc <;> omega
    rw [if_pos hlt]
    exact List.getElem?_set_eq_of_lt _ (by omega)
  · intro hcase
    simp only [toggleSortStates, hget]
    have hlt : ¬ (h.sortState < 1) := by omega
    rw [if_neg hlt]
    exact List.getElem?_set_eq_of_lt _ (by omega)
  · intro j h' hji hgj
    simp only [toggleSortStates, hget]
    rw [List.getElem?_set_ne (fun hij => hji hij.symm), List.getElem?_map, hgj]
    rfl

/-- Witness for C3 on a concrete two-column header list with the second
column in the descending state. -/
theorem c3_sort_toggle_cycle_witness :
    ((toggleSortStates [⟨"a", "A", true, 0⟩, ⟨"b", "B", true, -1⟩] 1)[1]?
        = some ⟨"b", "B", true, 1⟩)
    ∧ ((toggleSortStates [⟨"a", "A", true, 0⟩, ⟨"b", "B", true, -1⟩] 1)[0]?
        = some ⟨"a", "A", true, 0⟩) :=
  have h := c3_sort_toggle_cycle [⟨"a", "A", true, 0⟩, ⟨"b", "B", true, -1⟩] 1
    ⟨"b", "B", true, -1⟩ (by decide)
  ⟨h.2.1 (Or.inr rfl), h.2.2.2.1 0 ⟨"a", "A", true, 0⟩ (by decide) (by decide)⟩

/-! ## Single active sort column (C4) -/

/-- At most one header holds a non-`none` (non-zero) sort state. -/
def AtMostOneSorted (headers : List Header) : Prop :=
  ∀ (j k : Nat) (hj hk : Header), headers[j]? = some hj → headers[k]? = some hk →
    hj.sortState ≠ 0 → hk.sortState ≠ 0 → j = k

theorem getNewData_headers (st : DynamicTable) (r : Except String FetchData) :
    (st.getNewData r).headers = st.headers := by
  cases r <;> rfl

theorem prevClick_headers (st : DynamicTable) (r : Except String FetchData) :
    (st.prevClick r).headers = st.headers := by
  simp only [DynamicTable.prevClick]
  split
  · exact getNewData_headers _ r
  · rfl

theorem nextClick_headers (st : DynamicTable) (r : Except String FetchData) :
    (st.nextClick r).headers = st.headers := by
  simp only [DynamicTable.nextClick]
  split
  · exact getNewData_headers _ r
  · rfl

theorem searchKeyup_headers (st : DynamicTable) (text : String)
    (r : Except String FetchData) : (st.searchKeyup text r).headers = st.headers :=
  getNewData_headers _ r

/-- A column other than the clicked one always ends a toggle with sort state
0 (when the clicked index exists). -/
theorem toggleSortStates_other_zero (headers : List Header) (i : Nat) (hh : Header)
    (hgi : headers[i]? = some hh) (j : Nat) (hji : j ≠ i) (hj : Header)
    (hgj : (toggleSortStates headers i)[j]? = some hj) : hj.sortState = 0 := by
  unfold toggleSortStates at hgj
  rw [hgi] at hgj
  rw [List.getElem?_set_ne (fun hij => hji hij.symm), List.getElem?_map] at hgj
  cases hok : headers[j]? with
  | none => rw [hok] at hgj; simp at hgj
  | some o =>
    rw [hok] at hgj
    rw [Option.map_some'] at hgj
    rw [← Option.some.inj hgj]

theorem toggleSortStates_atMostOne (headers : List Header) (i : Nat)
    (h : AtMostOneSorted headers) : AtMostOneSorted (toggleSortStates headers i) := by
  intro j k hj hk hgj hgk hnj hnk
  cases hgi : headers[i]? with
  | none =>
    have hsame : toggleSortStates headers i = headers := by
      unfold toggleSortStates
      rw [hgi]
    rw [hsame] at hgj hgk
    exact h j k hj hk hgj hgk hnj hnk
  | some hh =>
    by_cases hji : j = i
    · by_cases hki : k = i
      · rw [hji, hki]
      · exact absurd (toggleSortStates_other_zero headers i hh hgi k hki hk hgk) hnk
    · exact absurd (toggleSortStates_other_zero headers i hh hgi j hji hj hgj) hnj

theorem step_preserves_atMostOne (st : DynamicTable) (op : Op)
    (h : AtMostOneSorted st.headers) : AtMostOneSorted (st.step op).headers := by
  cases op with
  | prevClick r => rw [DynamicTable.step, prevClick_headers]; exact h
  | nextClick r => rw [DynamicTable.step, nextClick_headers]; exact h
  | searchKeyup text r => rw [DynamicTable.step, searchKeyup_headers]; exact h
  | sortClick i r =>
    rw [DynamicTable.step]
    unfold DynamicTable.sortClick
    cases hgi : st.headers[i]? with
    | none => exact h
    | some hh =>
      by_cases hs : hh.isSortable
      · simp only [hs, if_true, getNewData_headers]
        exact toggleSortStates_atMostOne st.headers i h
      · simp only [hs, if_false]
        exact h

theorem fold_preserves_atMostOne :
    ∀ (ops : List Op) (st : DynamicTable), AtMostOneSorted st.headers →
      AtMostOneSorted (ops.foldl DynamicTable.step st).headers
  | [], _, h => h
  | op :: ops, st, h =>
    fold_preserves_atMostOne ops (st.step op) (step_preserves_atMostOne st op h)

theorem initTable_atMostOne (headers0 : List (String × String × Bool))
    (decs : List Decoration) (rowsPerPage : Int) (r : Except String FetchData) :
    AtMostOneSorted (initTable headers0 decs rowsPerPage r).headers := by
  intro j k hj hk hgj hgk hnj hnk
  exfalso
  apply hnj
  rw [initTable, getNewData_headers, List.getElem?_map] at hgj
  cases hok : headers0[j]? with
  | none => rw [hok] at hgj; simp at hgj
  | some o =>
    rw [hok] at hgj
    rw [Option.map_some'] at hgj
    rw [← Option.some.inj hgj]

/-- C4: at every point of every event sequence, at most one column header
has a non-`none` sort state: the constructor zeroes every `sortState`, and a
sort activation resets all headers to 0 before raising the clicked one. -/
theorem c4_at_most_one_sorted (headers0 : List (String × String × Bool))
    (decs : List Decoration) (rowsPerPage : Int) (initResult : Except String FetchData)
    (ops : List Op) :
    AtMostOneSorted (runTable headers0 decs rowsPerPage initResult ops).headers :=
  fold_preserves_atMostOne ops (initTable headers0 decs rowsPerPage initResult)
    (initTable_atMostOne headers0 decs rowsPerPage initResult)

/-- Witness for C4: after construction and one sort click on column 1 of a
two-column widget, the only index holding a non-zero sort state is 1. -/
theorem c4_at_most_one_sorted_witness : (1 : Nat) = 1 :=
  c4_at_most_one_sorted [("a", "A", true), ("b", "B", true)] [] 10
    (Except.ok { rows := [], start := 0, total := 25 })
    [Op.sortClick 1 (Except.error "e")] 1 1
    ⟨"b", "B", true, 1⟩ ⟨"b", "B", true, 1⟩ (by decide) (by decide)
    (by decide) (by decide)

/-- C5: when the fetch fires the `.catch` path, the error is surfaced
(`alert`) and logged (`console.error`), while `currentPage`, the sort state
(headers and `currentSort`), the query, and the previously rendered rows are
exactly what they were before the call; and whichever way the fetch settles,
the spinner shown at the start of `getNewData` is hidden afterwards. -/
theorem c5_fetch_failure_preserves_state (st : DynamicTable) (e : String)
    (r : Except String FetchData) :
    ((st.getNewData (Except.error e)).currentPage = st.currentPage
      ∧ (st.getNewData (Except.error e)).headers = st.headers
      ∧ (st.getNewData (Except.error e)).currentSortIdx = st.currentSortIdx
      ∧ (st.getNewData (Except.error e)).sortId = st.sortId
      ∧ (st.getNewData (Except.error e)).sortDir = st.sortDir
      ∧ (st.getNewData (Except.error e)).currentQuery = st.currentQuery
      ∧ (st.getNewData (Except.error e)).tBody = st.tBody
      ∧ (st.getNewData (Except.error e)).alertCount = st.alertCount + 1
      ∧ (st.getNewData (Except.error e)).errorLogCount = st.errorLogCount + 1)
    ∧ (st.getNewData r).loadingVisible = false := by
  refine ⟨⟨rfl, rfl, rfl, rfl, rfl, rfl, rfl, rfl, rfl⟩, ?_⟩
  cases r <;> rfl

/-- C6: every search keystroke stores the trimmed text as the query, resets
`currentPage` to 0 whatever it was, and fires exactly one new fetch, which
already uses the reset page and the new query. -/
theorem c6_search_resets_page (st : DynamicTable) (text : String)
    (r : Except String FetchData) :
    (st.searchKeyup text r).currentQuery = JsOpt.val text.trim
    ∧ (st.searchKeyup text r).currentPage = 0
    ∧ (st.searchKeyup text r).fetchLog.length = st.fetchLog.length + 1
    ∧ (st.searchKeyup text r).fetchLog.head?
        = some { pageNum := 0, query := JsOpt.val text.trim,
                 sortColId := st.sortId, sortColDir := st.sortDir }
    ∧ (st.searchKeyup "foo" r).currentPage = 0 := by
  refine ⟨?_, ?_, ?_, ?_, ?_⟩
  · cases r <;> rfl
  · cases r <;> rfl
  · simp [DynamicTable.searchKeyup, getNewData_fetchLog]
  · simp only [DynamicTable.searchKeyup, getNewData_fetchLog]
    rfl
  · cases r <;> rfl

/-- C7: a successful fetch stores the response's `start`, sets
`end = start + rows.length` and `total`, and renders the footer as
`"Showing {start+1} to {end} of {total}"`; on the response
`{rows: [[r1c1, r1c2], [r2c1, r2c2]], start: 10, total: 100}` the footer
reads exactly `"Showing 11 to 12 of 100"`. -/
theorem c7_update_status_line (st : DynamicTable) (data : FetchData) :
    (st.update data).start = data.start
    ∧ (st.update data).endIndex = data.start + (data.rows.length : Int)
    ∧ (st.update data).total = data.total
    ∧ (st.update data).shownText
        = "Showing " ++ toString ((st.update data).start + 1) ++ " to "
          ++ toString (st.update data).endIndex ++ " of "
          ++ toString (st.update data).total
    ∧ (st.update
        { rows := [["r1c1", "r1c2"], ["r2c1", "r2c2"]], start := 10, total := 100 }).shownText
        = "Showing 11 to 12 of 100" := by
  exact ⟨rfl, rfl, rfl, rfl, rfl⟩

/-! ## Decoration rules (C8, C9) -/

/-- C8: evaluating `setData`'s decoration pass and click binding at the
claim's input.  With the id-keyed rule the file's own usage comment shows
(`col: 'name'`), `row['name']` is an expando assignment, so the rendered row
stays `["Alice", "30"]` with no link element, and `td:eq(name)` binds the
callback to nothing — `f` is never invoked.  With the index-keyed variant
(`col: 0`) the cell is wrapped in the anchor markup and a click passes
"Alice" to the callback, which is what the claim describes. -/
theorem c8_link_decoration_by_id_fails :
    decorateRow [{ col := ColKey.id "name", type := "link", hasClick := true }]
      ["Alice", "30"] = ["Alice", "30"]
    ∧ clickInvocation { col := ColKey.id "name", type := "link", hasClick := true }
        (decorateRow [{ col := ColKey.id "name", type := "link", hasClick := true }]
          ["Alice", "30"]) = none
    ∧ decorateRow [{ col := ColKey.idx 0, type := "link", hasClick := true }]
        ["Alice", "30"] = ["<a style=\"cursor:pointer\">Alice</a>", "30"]
    ∧ clickInvocation { col := ColKey.idx 0, type := "link", hasClick := true }
        (decorateRow [{ col := ColKey.idx 0, type := "link", hasClick := true }]
          ["Alice", "30"]) = some "Alice" :=
  ⟨by decide, by decide, by decide, by decide⟩

theorem length_lt_wrapLink (c : String) : c.length < (wrapLink c).length := by
  have h1 : ("<a style=\"cursor:pointer\">" : String).length = 26 := rfl
  have h2 : ("</a>" : String).length = 4 := rfl
  simp only [wrapLink, String.length_append, h1, h2]
  omega

theorem length_lt_wrapButton (c : String) : c.length < (wrapButton c).length := by
  have h1 : ("<button class=\"btn btn-default btn-sm\">" : String).length = 39 := rfl
  have h2 : ("</button>" : String).length = 9 := rfl
  simp only [wrapButton, String.length_append, h1, h2]
  omega

/-- A decoration step never drops a cell and never shortens one. -/
theorem applyDec_get?_mono (dec : Decoration) (row : List String) (n : Nat)
    (c : String) (hc : row[n]? = some c) :
    ∃ c', (applyDec dec row)[n]? = some c' ∧ c.length ≤ c'.length := by
  have hn : n < row.length := List.getElem?_eq_some.mp hc |>.1
  cases hcol : dec.col with
  | id s =>
    have hres : applyDec dec row = row := by simp [applyDec, hcol]
    exact ⟨c, by rw [hres]; exact hc, le_refl _⟩
  | idx m =>
    cases hm : row[m]? with
    | none =>
      have hres : applyDec dec row = row := by simp [applyDec, hcol, hm]
      exact ⟨c, by rw [hres]; exact hc, le_refl _⟩
    | some cell =>
      by_cases hl : dec.type = "link"
      · have hres : applyDec dec row = row.set m (wrapLink cell) := by
          simp [applyDec, hcol, hm, hl]
        rw [hres]
        by_cases hmn : m = n
        · subst hmn
          have hcc : cell = c := Option.some.inj (hm.symm.trans hc)
          subst hcc
          exact ⟨wrapLink cell, List.getElem?_set_eq_of_lt _ hn, (length_lt_wrapLink cell).le⟩
        · exact ⟨c, by rw [List.getElem?_set_ne hmn]; exact hc, le_refl _⟩
      · by_cases hb : dec.type = "button"
        · have hres : applyDec dec row = row.set m (wrapButton cell) := by
            simp [applyDec, hcol, hm, hl, hb]
          rw [hres]
          by_cases hmn : m = n
          · subst hmn
            have hcc : cell = c := Option.some.inj (hm.symm.trans hc)
            subst hcc
            exact ⟨wrapButton cell, List.getElem?_set_eq_of_lt _ hn,
              (length_lt_wrapButton cell).le⟩
          · exact ⟨c, by rw [List.getElem?_set_ne hmn]; exact hc, le_refl _⟩
        · have hres : applyDec dec row = row := by simp [applyDec, hcol, hm, hl, hb]
          exact ⟨c, by rw [hres]; exact hc, le_refl _⟩

/-- A `link`/`button` rule keyed by in-range index `n` overwrites cell `n`
with the wrapping markup. -/
theorem applyDec_get?_wraps (dec : Decoration) (row : List String) (n : Nat)
    (c : String) (hcol : dec.col = ColKey.idx n) (hc : row[n]? = some c)
    (ht : dec.type = "link" ∨ dec.type = "button") :
    (applyDec dec row)[n]?
      = some (if dec.type = "link" then wrapLink c else wrapButton c) := by
  have hn : n < row.length := List.getElem?_eq_some.mp hc |>.1
  by_cases hl : dec.type = "link"
  · have hres : applyDec dec row = row.set n (wrapLink c) := by
      simp [applyDec, hcol, hc, hl]
    rw [hres, if_pos hl]
    exact List.getElem?_set_eq_of_lt _ hn
  · have hb : dec.type = "button" := ht.resolve_left hl
    have hres : applyDec dec row = row.set n (wrapButton c) := by
      simp [applyDec, hcol, hc, hl, hb]
    rw [hres, if_neg hl]
    exact List.getElem?_set_eq_of_lt _ hn

/-- The whole decoration pass never drops or shortens a cell. -/
theorem decorateRow_get?_mono :
    ∀ (decs : List Decoration) (row : List String) (n : Nat) (c : String),
      row[n]? = some c →
      ∃ c', (decorateRow decs row)[n]? = some c' ∧ c.length ≤ c'.length
  | [], _, _, c, hc => ⟨c, hc, le_refl _⟩
  | dec :: decs, row, n, c, hc => by
    obtain ⟨c1, hc1, hlen1⟩ := applyDec_get?_mono dec row n c hc
    obtain ⟨c2, hc2, hlen2⟩ := decorateRow_get?_mono decs (applyDec dec row) n c1 hc1
    exact ⟨c2, hc2, le_trans hlen1 hlen2⟩

/-- C9: `setData` writes the decoration markup back into the caller's row
arrays: each stored row is the caller's array after the in-place loop
(`tBody` holds `decorateRow` of it), and for every rule of type `link` or
`button` keyed by an in-range index, the array's entry at that index ends
the call strictly longer than — in particular different from — the original
cell text, having been overwritten with the wrapping markup. -/
theorem c9_setData_overwrites_rows (st : DynamicTable) (data : List (List String))
    (i : Nat) (decs : List Decoration) (row : List String) (dec : Decoration)
    (n : Nat) (c : String) (hrow : data[i]? = some row)
    (hmem : dec ∈ decs) (hcol : dec.col = ColKey.idx n) (hc : row[n]? = some c)
    (ht : dec.type = "link" ∨ dec.type = "button") :
    ((st.setData data).tBody[i]? = some (decorateRow st.decoration row))
    ∧ ((applyDec dec row)[n]?
        = some (if dec.type = "link" then wrapLink c else wrapButton c))
    ∧ (∃ c', (decorateRow decs row)[n]? = some c'
        ∧ c.length < c'.length ∧ c' ≠ c) := by
  refine ⟨?_, applyDec_get?_wraps dec row n c hcol hc ht, ?_⟩
  · simp only [DynamicTable.setData]
    rw [List.getElem?_map, hrow]
    rfl
  · obtain ⟨l1, l2, hsplit⟩ := List.append_of_mem hmem
    subst hsplit
    obtain ⟨c1, hc1, hlen1⟩ := decorateRow_get?_mono l1 row n c hc
    have hc2 := applyDec_get?_wraps dec (decorateRow l1 row) n c1 hcol hc1 ht
    have hlen2 : c1.length < (if dec.type = "link" then wrapLink c1 else wrapButton c1).length := by
      split
      · exact length_lt_wrapLink c1
      · exact length_lt_wrapButton c1
    obtain ⟨c3, hc3, hlen3⟩ := decorateRow_get?_mono l2
      (applyDec dec (decorateRow l1 row)) n _ hc2
    have hfold : decorateRow (l1 ++ dec :: l2) row
        = decorateRow l2 (applyDec dec (decorateRow l1 row)) := by
      simp only [decorateRow, List.foldl_append, List.foldl_cons]
    refine ⟨c3, by rw [hfold]; exact hc3, by omega, ?_⟩
    intro hcontra
    rw [hcontra] at hlen3
    omega

/-- Witness for C9: a link rule on column 0 of `["Alice", "30"]` stored in a
fresh widget configured with that rule. -/
theorem c9_setData_overwrites_rows_witness :
    (((initTable [] [{ col := ColKey.idx 0, type := "link", hasClick := true }] 10
        (Except.error "e")).setData [["Alice", "30"]]).tBody[0]?
      = some (decorateRow [{ col := ColKey.idx 0, type := "link", hasClick := true }]
          ["Alice", "30"]))
    ∧ ((applyDec { col := ColKey.idx 0, type := "link", hasClick := true }
        ["Alice", "30"])[0]?
      = some (if ({ col := ColKey.idx 0, type := "link", hasClick := true } : Decoration).type
            = "link"
          then wrapLink "Alice" else wrapButton "Alice"))
    ∧ (∃ c', (decorateRow [{ col := ColKey.idx 0, type := "link", hasClick := true }]
        ["Alice", "30"])[0]? = some c'
        ∧ ("Alice" : String).length < c'.length ∧ c' ≠ "Alice") :=
  c9_setData_overwrites_rows
    (initTable [] [{ col := ColKey.idx 0, type := "link", hasClick := true }] 10
      (Except.error "e"))
    [["Alice", "30"]] 0 [{ col := ColKey.idx 0, type := "link", hasClick := true }]
    ["Alice", "30"] { col := ColKey.idx 0, type := "link", hasClick := true } 0 "Alice"
    (by decide) (by decide) (by decide) (by decide) (Or.inl (by decide))

/-! ## Fetch arguments before the first search or sort (C10) -/

/-- Before the user has typed or sorted: `currentQuery` is still the
never-initialised field, `currentSort` is still the constructor's literal,
and every fetch so far was invoked with `query = undefined` and
`sortDirection = undefined`. -/
def UndefQuerySort (st : DynamicTable) : Prop :=
  st.currentQuery = JsOpt.undef ∧ st.currentSortIdx = none
    ∧ ∀ a ∈ st.fetchLog, a.query = JsOpt.undef ∧ a.sortColDir = JsOpt.undef

theorem getNewData_currentQuery (st : DynamicTable) (r : Except String FetchData) :
    (st.getNewData r).currentQuery = st.currentQuery := by
  cases r <;> rfl

theorem getNewData_currentSortIdx (st : DynamicTable) (r : Except String FetchData) :
    (st.getNewData r).currentSortIdx = st.currentSortIdx := by
  cases r <;> rfl

theorem getNewData_undefQuerySort (st : DynamicTable) (r : Except String FetchData)
    (h : UndefQuerySort st) : UndefQuerySort (st.getNewData r) := by
  obtain ⟨hq, hs, hlog⟩ := h
  have hdir : st.sortDir = JsOpt.undef := by
    simp [DynamicTable.sortDir, hs]
  refine ⟨by rw [getNewData_currentQuery]; exact hq,
    by rw [getNewData_currentSortIdx]; exact hs, ?_⟩
  intro a ha
  rw [getNewData_fetchLog] at ha
  rcases List.mem_cons.mp ha with h1 | h2
  · subst h1
    exact ⟨hq, hdir⟩
  · exact hlog a h2

theorem step_nav_undefQuerySort (st : DynamicTable) (op : Op)
    (hop : op.isNav = true) (h : UndefQuerySort st) : UndefQuerySort (st.step op) := by
  cases op with
  | prevClick r =>
    simp only [DynamicTable.step, DynamicTable.prevClick]
    split
    · exact getNewData_undefQuerySort _ r h
    · exact h
  | nextClick r =>
    simp only [DynamicTable.step, DynamicTable.nextClick]
    split
    · exact getNewData_undefQuerySort _ r h
    · exact h
  | searchKeyup t r => simp [Op.isNav] at hop
  | sortClick i r => simp [Op.isNav] at hop

theorem fold_nav_undefQuerySort :
    ∀ (ops : List Op) (st : DynamicTable), (∀ op ∈ ops, op.isNav = true) →
      UndefQuerySort st → UndefQuerySort (ops.foldl DynamicTable.step st)
  | [], _, _, h => h
  | op :: ops, st, hops, h =>
    fold_nav_undefQuerySort ops (st.step op)
      (fun o ho => hops o (List.mem_cons_of_mem _ ho))
      (step_nav_undefQuerySort st op (hops op (List.mem_cons_self _ _)) h)

theorem initTable_undefQuerySort (headers0 : List (String × String × Bool))
    (decs : List Decoration) (rowsPerPage : Int) (r : Except String FetchData) :
    UndefQuerySort (initTable headers0 decs rowsPerPage r) :=
  getNewData_undefQuerySort _ r
    ⟨rfl, rfl, fun a ha => absurd ha (List.not_mem_nil a)⟩

/-- C10: on the constructor's initial fetch and on every later fetch fired
before the first search keystroke or sort click (i.e. along pagination-only
event sequences), `updateFunction` receives `query = undefined`
(`currentQuery` is never initialised) and `sortDirection = undefined`
(`currentSort` is still `{id: null, dir: null}`, which has no `sortState`
field). -/
theorem c10_fetch_args_undefined (headers0 : List (String × String × Bool))
    (decs : List Decoration) (rowsPerPage : Int) (initResult : Except String FetchData)
    (ops : List Op) (hnav : ∀ op ∈ ops, op.isNav = true) :
    ∀ a ∈ (runTable headers0 decs rowsPerPage initResult ops).fetchLog,
      a.query = JsOpt.undef ∧ a.sortColDir = JsOpt.undef :=
  (fold_nav_undefQuerySort ops (initTable headers0 decs rowsPerPage initResult) hnav
    (initTable_undefQuerySort headers0 decs rowsPerPage initResult)).2.2

/-- Witness for C10: a one-column widget whose initial fetch resolves with
25 rows, followed by one right-button click; the click's fetch was invoked
with page 1, `query = undefined` and `sortDirection = undefined`. -/
theorem c10_fetch_args_undefined_witness :
    (⟨1, JsOpt.undef, JsOpt.null, JsOpt.undef⟩ : FetchArgs).query = JsOpt.undef
    ∧ (⟨1, JsOpt.undef, JsOpt.null, JsOpt.undef⟩ : FetchArgs).sortColDir = JsOpt.undef :=
  c10_fetch_args_undefined [("a", "A", true)] [] 10
    (Except.ok { rows := [], start := 0, total := 25 })
    [Op.nextClick (Except.error "e")] (by decide)
    ⟨1, JsOpt.undef, JsOpt.null, JsOpt.undef⟩ (by decide)

end DynTable
